import Mathlib

/-
  Verification development for the skeema linter package
  (src/linter/linter.go, src/linter/config.go).

  Shallow embedding: Go structs become Lean structures; Go maps over
  string keys become association lists with last-write-wins insertion;
  the external collaborators (fs.Dir configuration, fs.Statement,
  regexp matching, the workspace execution service, and the problem
  checker registry) are modelled as explicit data / function parameters,
  mirroring exactly the interface surface the linter package consumes.
-/

set_option maxRecDepth 4000

namespace Skeema

/-- Severity represents annotation severity levels (config.go: type Severity string,
with the two constants SeverityError = "error", SeverityWarning = "warning";
no other value is ever constructed). -/
inductive Severity where
  | error
  | warning
deriving DecidableEq

/-- config.go constant SeverityError. -/
def SeverityError : Severity := Severity.error

/-- config.go constant SeverityWarning. -/
def SeverityWarning : Severity := Severity.warning

/-- A Go error value as seen by this package: either the distinguished
ConfigError kind (config.go: type ConfigError string) or any other error,
carried by its Error() message. -/
inductive GoError where
  | configError (msg : String)
  | generic (msg : String)
deriving DecidableEq

/-- The Error() method of a Go error: its message text.
For ConfigError this is config.go's `func (ce ConfigError) Error() string`. -/
def GoError.message : GoError → String
  | GoError.configError m => m
  | GoError.generic m => m

/-- An fs.Statement (external collaborator): file path, line number,
column number, and raw text. The raw text splits into a body and a
trailing suffix via SplitTextBody; we carry the two halves so that the
split is the exact inverse of concatenation, as in the fs package. -/
structure Statement where
  File : String
  LineNo : Int
  CharNo : Int
  body : String
  suffix : String
deriving DecidableEq

/-- The statement's raw text (fs.Statement.Text). -/
def Statement.Text (s : Statement) : String := s.body ++ s.suffix

/-- fs.Statement.SplitTextBody: splits Text into body and trailing suffix. -/
def Statement.SplitTextBody (s : Statement) : String × String := (s.body, s.suffix)

/-- linter.go: Annotation is an error, warning, or notice from linting a
single SQL statement. -/
structure Annotation where
  Statement : Statement
  LineOffset : Int
  Summary : String
  Message : String
deriving DecidableEq

/-- linter.go: Annotation.MessageWithLocation. -/
def Annotation.MessageWithLocation (a : Annotation) : String :=
  if a.Statement.File = "" ∨ a.Statement.LineNo = 0 then
    a.Message ++ " [Full SQL: " ++ a.Statement.Text ++ "]"
  else if a.LineOffset = 0 ∧ a.Statement.CharNo > 1 then
    a.Statement.File ++ ":" ++ toString a.Statement.LineNo ++ ":" ++
      toString a.Statement.CharNo ++ ": " ++ a.Message
  else
    a.Statement.File ++ ":" ++ toString (a.Statement.LineNo + a.LineOffset) ++ ": " ++ a.Message

/-- linter.go: Result is a combined set of linter annotations and/or Golang
errors found when linting a directory and its subdirs. -/
structure Result where
  Errors : List Annotation
  Warnings : List Annotation
  FormatNotices : List Annotation
  DebugLogs : List String
  Exceptions : List GoError
deriving DecidableEq

/-- The zero value of Result (Go: &Result\x7b\x7d). -/
def Result.emptyR : Result := ⟨[], [], [], [], []⟩

/-- linter.go: Result.Merge combines other into r's value (in Go, in place;
here, returning the updated value). -/
def Result.Merge (r other : Result) : Result :=
  { Errors := r.Errors ++ other.Errors
    Warnings := r.Warnings ++ other.Warnings
    FormatNotices := r.FormatNotices ++ other.FormatNotices
    DebugLogs := r.DebugLogs ++ other.DebugLogs
    Exceptions := r.Exceptions ++ other.Exceptions }

/-- The conversion performed by BadConfigResult: the supplied err is
converted to a ConfigError (carrying err.Error()) if it is not already one. -/
def toConfigError (err : GoError) : GoError :=
  match err with
  | GoError.configError _ => err
  | GoError.generic m => GoError.configError m

/-- linter.go: BadConfigResult returns a Result containing a single
ConfigError in the Exceptions field. -/
def BadConfigResult (err : GoError) : Result :=
  { Errors := [], Warnings := [], FormatNotices := [], DebugLogs := [],
    Exceptions := [toConfigError err] }

/-- Modelled from the spec: the problem registry (problems.go) is not under
src/; only config.go's calls to allProblemNames and problemExists reference
it. Per the spec, the registry's catalog is the checks named no-pk,
bad-charset and bad-engine (spec sections 4.2 and 8, and the package's
default warnings list). -/
def allProblemNames : List String := ["no-pk", "bad-charset", "bad-engine"]

/-- Modelled from the spec: problemExists reports whether a name is a key
of the problem registry. -/
def problemExists (name : String) : Bool := allProblemNames.contains name

/-- Go strings.ToLower as used by config.go (ASCII problem names):
character-wise lower-casing, written by structural recursion over the
character list so that it evaluates on concrete inputs. -/
def strToLower (s : String) : String := String.mk (s.data.map Char.toLower)

/-- Go strings.HasPrefix: the first string begins with the second; written
by structural recursion over the character lists so that it evaluates on
concrete inputs. -/
def strStartsWith (s p : String) : Bool := p.data.isPrefixOf s.data

/-- A compiled regular expression as consumed by the linter (external Go
regexp package): its source text (Regexp.String) and its matching
predicate (Regexp.MatchString). -/
structure Regexp where
  source : String
  matchesFn : String → Bool

/-- Go regexp MatchString. -/
def Regexp.MatchString (r : Regexp) (s : String) : Bool := r.matchesFn s

/-- tengo object types; the linter only ever compares against
tengo.ObjectTypeTable. -/
inductive ObjectType where
  | table
  | proc
  | func
deriving DecidableEq

/-- The string form of a tengo ObjectType. -/
def ObjectType.str : ObjectType → String
  | ObjectType.table => "table"
  | ObjectType.proc => "procedure"
  | ObjectType.func => "function"

/-- tengo.ObjectKey: object type plus object name. -/
structure ObjectKey where
  typ : ObjectType
  Name : String
deriving DecidableEq

/-- tengo ObjectKey.String: "type name". -/
def ObjectKey.str (k : ObjectKey) : String := k.typ.str ++ " " ++ k.Name

/-- An fs.LogicalSchema (external collaborator) as consumed by the linter:
a name and the Creates lookup from object key to the filesystem CREATE
statement (Go map indexing is total, yielding the zero statement for a
missing key). -/
structure LogicalSchema where
  Name : String
  Creates : ObjectKey → Statement

/-- linter.go: Options contains parsed settings controlling linter behavior.
The Go map ProblemSeverity is embedded as an association list with
last-write-wins insertion (psInsert) and key lookup (psLookup). -/
structure Options where
  ProblemSeverity : List (String × Severity)
  AllowedCharSets : List String
  AllowedEngines : List String
deriving DecidableEq

/-- Go map assignment m[k] = v on the association-list embedding:
overwrite the entry for k (keys are unique by construction, every map is
built from the empty list by psInsert), else append a new one. -/
def psInsert : List (String × Severity) → String → Severity → List (String × Severity)
  | [], k, v => [(k, v)]
  | p :: rest, k, v => if p.1 == k then (k, v) :: rest else p :: psInsert rest k v

/-- Go map lookup m[k] on the association-list embedding. -/
def psLookup : List (String × Severity) → String → Option Severity
  | [], _ => none
  | p :: rest, k => if p.1 == k then some p.2 else psLookup rest k

/-- The fs.Dir surface consumed by the linter (external collaborator):
RelPath, the two GetRegexp option lookups (each either a parse error, or
an optional compiled pattern — none when the option is unset), the four
comma-split-and-trimmed GetSlice option lookups, the literal schema names
(GetSlice "schema"), and the directory's logical schemas. -/
structure Dir where
  relPath : String
  ignoreTableOpt : Except GoError (Option Regexp)
  ignoreSchemaOpt : Except GoError (Option Regexp)
  warnings : List String
  errors : List String
  allowCharset : List String
  allowEngine : List String
  schemaNames : List String
  LogicalSchemas : List LogicalSchema

/-- The loop body of OptionsForDir over one of the two problem-name lists
(config.go lines 46-59): lower-case each value, fail with the ConfigError
message for optName on the first unknown name, else record the severity. -/
def applySeverityList (m : List (String × Severity)) (vals : List String) (sev : Severity)
    (optName : String) (allAllowed : String) : List (String × Severity) × Option GoError :=
  match vals with
  | [] => (m, none)
  | v :: rest =>
    let lv := strToLower v
    if problemExists lv then
      applySeverityList (psInsert m lv sev) rest sev optName allAllowed
    else
      (m, some (GoError.configError
        ("Option " ++ optName ++ " must be a comma-separated list including these values: "
          ++ allAllowed)))

/-- The local allAllowed of OptionsForDir (config.go line 45):
strings.Join(allProblemNames(), ", "). -/
def allAllowedStr : String := String.intercalate ", " allProblemNames

/-- config.go: OptionsForDir returns Options based on the configuration in
an fs.Dir. Mirrors the Go return convention (Options, error): on error the
partially built Options value (allow-lists and the severity entries
recorded so far) is returned alongside the ConfigError. -/
def OptionsForDir (dir : Dir) : Options × Option GoError :=
  match applySeverityList [] dir.warnings SeverityWarning "warnings" allAllowedStr with
  | (m, some e) =>
    ({ ProblemSeverity := m, AllowedCharSets := dir.allowCharset,
       AllowedEngines := dir.allowEngine }, some e)
  | (m, none) =>
    ({ ProblemSeverity := (applySeverityList m dir.errors SeverityError "errors" allAllowedStr).1,
       AllowedCharSets := dir.allowCharset, AllowedEngines := dir.allowEngine },
     (applySeverityList m dir.errors SeverityError "errors" allAllowedStr).2)

/-- A workspace.StatementError (external collaborator) as consumed by the
linter: the offending statement, the object type and name it concerns, and
the underlying error. -/
structure StatementError where
  Stmt : Statement
  objType : ObjectType
  ObjectName : String
  Err : GoError
deriving DecidableEq

/-- workspace StatementError.ObjectKey. -/
def StatementError.ObjectKeyOf (se : StatementError) : ObjectKey :=
  ⟨se.objType, se.ObjectName⟩

/-- A materialized tengo.Schema as consumed by the linter: its
ObjectDefinitions iteration, a finite map from object key to canonical
CREATE text. -/
structure Schema where
  ObjectDefinitions : List (ObjectKey × String)
deriving DecidableEq

/-- The result triple of workspace.ExecLogicalSchema (external
collaborator): either a materialized schema together with the
per-statement execution errors, or a service-level error. -/
inductive ExecResult where
  | ok (schema : Schema) (stmtErrors : List StatementError)
  | fail (err : GoError)

/-- The type of a problem checker (spec section 4.2): a pure function of
the materialized schema, the logical schema and the Options. -/
def Checker := Schema → LogicalSchema → Options → List Annotation

/-- Modelled from the spec: the global problems map (problems.go) is not
under src/; LintDir is parametrized by it. Checkers are deterministic and
side-effect-free per spec section 4.2, so a plain function suffices. -/
def ProblemsMap := String → Checker

/-- Go test `r != nil && r.MatchString(s)` for an optional pattern. -/
def matchOpt (r : Option Regexp) (s : String) : Bool :=
  match r with
  | none => false
  | some p => p.MatchString s

/-- The ignore-schema test of LintDir (linter.go lines 86-92): the pattern
is set and some literal configured schema name matches it. -/
def skipTriggered (dir : Dir) (isc : Option Regexp) : Bool :=
  match isc with
  | none => false
  | some p => dir.schemaNames.any p.matchesFn

/-- The %s rendering of an optional Regexp (its source; only ever used
under a branch where the pattern is set). -/
def patSource (r : Option Regexp) : String :=
  match r with
  | none => ""
  | some p => p.source

/-- Debug message of linter.go line 94. -/
def schemaSkipMsg (dir : Dir) (isc : Option Regexp) : String :=
  "Skipping schema in " ++ dir.relPath ++ " because ignore-schema='" ++ patSource isc ++ "'"

/-- Debug message of linter.go lines 108 and 132. -/
def tableSkipMsg (key : ObjectKey) (it : Option Regexp) : String :=
  "Skipping " ++ key.str ++ " because ignore-table='" ++ patSource it ++ "'"

/-- The ignore-table test of linter.go lines 107 and 131:
the object is a table, the pattern is set, and the name matches. -/
def ignoredTableKey (it : Option Regexp) (key : ObjectKey) : Bool :=
  (key.typ == ObjectType.table) && matchOpt it key.Name

/-- The statement-error loop of LintDir (linter.go lines 106-116): ignored
tables get a debug log entry, every other statement error becomes an
Error annotation. -/
def processStmtErrors (it : Option Regexp) :
    List StatementError → Result → Result
  | [], acc => acc
  | se :: rest, acc =>
    if ignoredTableKey it se.ObjectKeyOf then
      processStmtErrors it rest
        { acc with DebugLogs := acc.DebugLogs ++ [tableSkipMsg se.ObjectKeyOf it] }
    else
      processStmtErrors it rest
        { acc with Errors := acc.Errors ++
            [{ Statement := se.Stmt, LineOffset := 0,
               Summary := "SQL statement returned an error",
               Message := se.Err.message }] }

/-- The problem-checker loop of LintDir (linter.go lines 118-125):
warnings-severity findings go to Warnings, everything else to Errors. -/
def runProblems (pm : ProblemsMap) (schema : Schema) (ls : LogicalSchema) (opts : Options) :
    List (String × Severity) → Result → Result
  | [], acc => acc
  | (pname, sev) :: rest, acc =>
    let annotations := pm pname schema ls opts
    let acc2 :=
      if sev = SeverityWarning then { acc with Warnings := acc.Warnings ++ annotations }
      else { acc with Errors := acc.Errors ++ annotations }
    runProblems pm schema ls opts rest acc2

/-- The reformat-detection loop of LintDir (linter.go lines 130-144). -/
def reformatLoop (it : Option Regexp) (ls : LogicalSchema) :
    List (ObjectKey × String) → Result → Result
  | [], acc => acc
  | (key, instCreateText) :: rest, acc =>
    if ignoredTableKey it key then
      reformatLoop it ls rest
        { acc with DebugLogs := acc.DebugLogs ++ [tableSkipMsg key it] }
    else
      let fsStmt := ls.Creates key
      if instCreateText != fsStmt.SplitTextBody.1 then
        reformatLoop it ls rest
          { acc with FormatNotices := acc.FormatNotices ++
              [{ Statement := fsStmt, LineOffset := 0,
                 Summary := "SQL statement should be reformatted",
                 Message := instCreateText ++ fsStmt.SplitTextBody.2 }] }
      else
        reformatLoop it ls rest acc

/-- The per-logical-schema body of LintDir once the ignore-schema test has
not fired (linter.go lines 99-144): materialize via the workspace service,
then the three loops in order. -/
def lintOneSchema (pm : ProblemsMap) (exec : LogicalSchema → ExecResult) (dir : Dir)
    (it : Option Regexp) (opts : Options) (ls : LogicalSchema) (acc : Result) : Result :=
  match exec ls with
  | ExecResult.fail e =>
    { acc with Exceptions := acc.Exceptions ++
        [GoError.generic ("Skipping schema in " ++ dir.relPath ++ " due to error: "
          ++ e.message)] }
  | ExecResult.ok schema stmtErrors =>
    let acc1 := processStmtErrors it stmtErrors acc
    let acc2 := runProblems pm schema ls opts opts.ProblemSeverity acc1
    reformatLoop it ls schema.ObjectDefinitions acc2

/-- The logical-schema loop of LintDir (linter.go lines 82-145). When the
ignore-schema test fires the Go code logs one debug entry and returns the
accumulated result, abandoning the remaining logical schemas. -/
def lintSchemas (pm : ProblemsMap) (exec : LogicalSchema → ExecResult) (dir : Dir)
    (it isc : Option Regexp) (opts : Options) :
    List LogicalSchema → Result → Result
  | [], acc => acc
  | ls :: rest, acc =>
    if skipTriggered dir isc then
      { acc with DebugLogs := acc.DebugLogs ++ [schemaSkipMsg dir isc] }
    else
      lintSchemas pm exec dir it isc opts rest (lintOneSchema pm exec dir it opts ls acc)

/-- linter.go: LintDir lints dir, returning a cumulative result. The
workspace service (ExecLogicalSchema with its wsOpts already applied) and
the problem registry are passed as the functional parameters exec and pm. -/
def LintDir (pm : ProblemsMap) (exec : LogicalSchema → ExecResult) (dir : Dir) : Result :=
  match dir.ignoreTableOpt with
  | Except.error e => BadConfigResult e
  | Except.ok it =>
    match dir.ignoreSchemaOpt with
    | Except.error e => BadConfigResult e
    | Except.ok isc =>
      match OptionsForDir dir with
      | (_, some e) => BadConfigResult e
      | (opts, none) => lintSchemas pm exec dir it isc opts dir.LogicalSchemas Result.emptyR

/-- Folding psInsert over a list of names, lower-casing each, all with the
same severity: the cumulative effect of one completed OptionsForDir loop. -/
def psInsertAll (m : List (String × Severity)) (vals : List String) (sev : Severity) :
    List (String × Severity) :=
  match vals with
  | [] => m
  | v :: rest => psInsertAll (psInsert m (strToLower v) sev) rest sev

theorem psLookup_psInsert_self (m : List (String × Severity)) (k : String) (v : Severity) :
    psLookup (psInsert m k v) k = some v := by
  induction m with
  | nil => simp [psInsert, psLookup]
  | cons p rest ih =>
    by_cases h : (p.1 == k) = true
    · simp [psInsert, h, psLookup]
    · rw [Bool.not_eq_true] at h
      simp [psInsert, h, psLookup]
      exact ih

theorem psLookup_psInsert_of_ne (m : List (String × Severity)) (k k' : String) (v : Severity)
    (hne : k ≠ k') : psLookup (psInsert m k v) k' = psLookup m k' := by
  have hkk : (k == k') = false := by
    simp only [beq_eq_false_iff_ne, ne_eq]
    exact hne
  induction m with
  | nil => simp [psInsert, psLookup, hkk]
  | cons p rest ih =>
    by_cases h : (p.1 == k) = true
    · have hp : p.1 = k := by simpa using h
      have hpk : (p.1 == k') = false := by rw [hp]; exact hkk
      simp [psInsert, h, psLookup, hkk, hpk]
    · rw [Bool.not_eq_true] at h
      by_cases h2 : (p.1 == k') = true
      · simp [psInsert, h, psLookup, h2]
      · rw [Bool.not_eq_true] at h2
        simp [psInsert, h, psLookup, h2]
        exact ih

theorem psLookup_isSome_psInsert (m : List (String × Severity)) (k k' : String) (v : Severity)
    (h : (psLookup m k).isSome = true) :
    (psLookup (psInsert m k' v) k).isSome = true := by
  by_cases he : k' = k
  · subst he
    rw [psLookup_psInsert_self]
    rfl
  · rw [psLookup_psInsert_of_ne m k' k v he]
    exact h

theorem psLookup_psInsertAll_of_some (vals : List String) (sev : Severity) (k : String) :
    ∀ m, psLookup m k = some sev → psLookup (psInsertAll m vals sev) k = some sev := by
  induction vals with
  | nil => intro m h; exact h
  | cons w rest ih =>
    intro m h
    show psLookup (psInsertAll (psInsert m (strToLower w) sev) rest sev) k = some sev
    apply ih
    by_cases he : (strToLower w) = k
    · rw [he]
      exact psLookup_psInsert_self m k sev
    · rw [psLookup_psInsert_of_ne m (strToLower w) k sev he]
      exact h

theorem psLookup_psInsertAll_mem (vals : List String) (sev : Severity) (v : String) :
    v ∈ vals → ∀ m, psLookup (psInsertAll m vals sev) (strToLower v) = some sev := by
  induction vals with
  | nil => intro hv m; cases hv
  | cons w rest ih =>
    intro hv m
    rcases List.mem_cons.mp hv with heq | hmem
    · rw [heq]
      exact psLookup_psInsertAll_of_some rest sev (strToLower w) (psInsert m (strToLower w) sev)
        (psLookup_psInsert_self m (strToLower w) sev)
    · exact ih hmem (psInsert m (strToLower w) sev)

theorem psLookup_psInsertAll_isSome (vals : List String) (sev : Severity) (k : String) :
    ∀ m, (psLookup m k).isSome = true → (psLookup (psInsertAll m vals sev) k).isSome = true := by
  induction vals with
  | nil => intro m h; exact h
  | cons w rest ih =>
    intro m h
    exact ih (psInsert m (strToLower w) sev) (psLookup_isSome_psInsert m k (strToLower w) sev h)

theorem applySeverityList_all_valid (vals : List String) (sev : Severity) (o a : String) :
    (∀ v ∈ vals, problemExists (strToLower v) = true) →
    ∀ m, applySeverityList m vals sev o a = (psInsertAll m vals sev, none) := by
  induction vals with
  | nil => intro _ m; rfl
  | cons w rest ih =>
    intro h m
    have hw : problemExists (strToLower w) = true := h w (List.mem_cons_self w rest)
    simp only [applySeverityList, hw, if_true]
    exact ih (fun v hv => h v (List.mem_cons_of_mem w hv)) (psInsert m (strToLower w) sev)

theorem applySeverityList_bad_split (bad : String) (post : List String) (sev : Severity)
    (o a : String) (hbad : problemExists (strToLower bad) = false) (pre : List String) :
    (∀ v ∈ pre, problemExists (strToLower v) = true) →
    ∀ m, applySeverityList m (pre ++ bad :: post) sev o a =
      (psInsertAll m pre sev,
       some (GoError.configError
         ("Option " ++ o ++ " must be a comma-separated list including these values: " ++ a))) := by
  induction pre with
  | nil =>
    intro _ m
    simp only [List.nil_append, applySeverityList, hbad, Bool.false_eq_true, if_false]
    rfl
  | cons w rest ih =>
    intro hpre m
    have hw : problemExists (strToLower w) = true := hpre w (List.mem_cons_self w rest)
    simp only [List.cons_append, applySeverityList, hw, if_true]
    exact ih (fun v hv => hpre v (List.mem_cons_of_mem w hv)) (psInsert m (strToLower w) sev)

theorem applySeverityList_bad_exists (vals : List String) (sev : Severity) (o a : String) :
    (∃ v ∈ vals, problemExists (strToLower v) = false) →
    ∀ m, (applySeverityList m vals sev o a).2 =
      some (GoError.configError
        ("Option " ++ o ++ " must be a comma-separated list including these values: " ++ a)) := by
  induction vals with
  | nil => intro h m; obtain ⟨v, hv, _⟩ := h; cases hv
  | cons w rest ih =>
    intro h m
    by_cases hw : problemExists (strToLower w) = true
    · simp only [applySeverityList, hw, if_true]
      apply ih
      obtain ⟨v, hv, hvbad⟩ := h
      rcases List.mem_cons.mp hv with heq | hmem
      · rw [heq] at hvbad
        rw [hw] at hvbad
        cases hvbad
      · exact ⟨v, hmem, hvbad⟩
    · rw [Bool.not_eq_true] at hw
      simp only [applySeverityList, hw, Bool.false_eq_true, if_false]

theorem applySeverityList_none_imp (vals : List String) (sev : Severity) (o a : String) :
    ∀ m m', applySeverityList m vals sev o a = (m', none) →
    m' = psInsertAll m vals sev := by
  induction vals with
  | nil =>
    intro m m' h
    exact (congrArg Prod.fst h).symm
  | cons w rest ih =>
    intro m m' h
    by_cases hw : problemExists (strToLower w) = true
    · simp only [applySeverityList, hw, if_true] at h
      exact ih (psInsert m (strToLower w) sev) m' h
    · rw [Bool.not_eq_true] at hw
      simp only [applySeverityList, hw, Bool.false_eq_true, if_false] at h
      exact absurd (congrArg Prod.snd h) (by simp)


/-- C5: Annotation.MessageWithLocation renders exactly one of three forms,
chosen in this order: if the statement's file is empty or its line number
is zero, the result is "<message> [Full SQL: <raw text>]"; otherwise if
LineOffset is zero and the column number is greater than 1, the result is
"<file>:<line>:<col>: <message>"; otherwise the result is
"<file>:<line + offset>: <message>" — any non-zero LineOffset suppresses
the column and uses the adjusted line. -/
theorem MessageWithLocation_three_forms (a : Annotation) :
    ((a.Statement.File = "" ∨ a.Statement.LineNo = 0) →
      a.MessageWithLocation = a.Message ++ " [Full SQL: " ++ a.Statement.Text ++ "]") ∧
    (¬(a.Statement.File = "" ∨ a.Statement.LineNo = 0) →
      (a.LineOffset = 0 ∧ a.Statement.CharNo > 1) →
      a.MessageWithLocation = a.Statement.File ++ ":" ++ toString a.Statement.LineNo ++ ":" ++
        toString a.Statement.CharNo ++ ": " ++ a.Message) ∧
    (¬(a.Statement.File = "" ∨ a.Statement.LineNo = 0) →
      ¬(a.LineOffset = 0 ∧ a.Statement.CharNo > 1) →
      a.MessageWithLocation = a.Statement.File ++ ":" ++
        toString (a.Statement.LineNo + a.LineOffset) ++ ": " ++ a.Message) := by
  refine ⟨fun h1 => ?_, fun h1 h2 => ?_, fun h1 h2 => ?_⟩
  · simp only [ Annotation.MessageWithLocation]
    rw [if_pos h1]
  · simp only [ Annotation.MessageWithLocation]
    rw [if_neg h1, if_pos h2]
  · simp only [ Annotation.MessageWithLocation]
    rw [if_neg h1, if_neg h2]

/-- Witness input for the C5 theorem: file "a.sql", line 5, column 3,
LineOffset 2, message "bad" (the example of spec section 8). -/
def annC5 : Annotation :=
  { Statement := { File := "a.sql", LineNo := 5, CharNo := 3, body := "SELECT 1", suffix := ";" },
    LineOffset := 2, Summary := "lint", Message := "bad" }

/-- C5 witness: the third branch fires at annC5 — the non-zero offset
suppresses the column and the rendered line is 5 + 2 = 7. -/
theorem MessageWithLocation_three_forms_witness :
    annC5.MessageWithLocation = "a.sql:7: bad" := by
  have h := (MessageWithLocation_three_forms annC5).2.2 (by decide) (by decide)
  rw [h]
  rfl

/-- C6: Result.Merge appends each of the five sequence fields of other
onto the corresponding field of r: each resulting field is r's prior
entries in order followed by other's entries in order, nothing dropped or
duplicated. -/
theorem Merge_appends_all_five_fields (r other : Result) :
    (r.Merge other).Errors = r.Errors ++ other.Errors ∧
    (r.Merge other).Warnings = r.Warnings ++ other.Warnings ∧
    (r.Merge other).FormatNotices = r.FormatNotices ++ other.FormatNotices ∧
    (r.Merge other).DebugLogs = r.DebugLogs ++ other.DebugLogs ∧
    (r.Merge other).Exceptions = r.Exceptions ++ other.Exceptions :=
  ⟨rfl, rfl, rfl, rfl, rfl⟩

/-- C10: for every error err, BadConfigResult err has exactly one entry in
Exceptions — a ConfigError carrying exactly the message err.Error() (when
err is already a ConfigError this leaves it unchanged, since a ConfigError
is determined by its message) — and Errors, Warnings, FormatNotices and
DebugLogs are all empty. -/
theorem BadConfigResult_single_exception (err : GoError) :
    BadConfigResult err =
      { Errors := [], Warnings := [], FormatNotices := [], DebugLogs := [],
        Exceptions := [GoError.configError err.message] } := by
  cases err <;> rfl

/-- C2: whenever the ignore-table or ignore-schema configuration value
fails to parse, or OptionsForDir fails, LintDir returns immediately a
Result whose only content is a single ConfigError exception (the
underlying error converted to ConfigError), with Errors, Warnings,
FormatNotices and DebugLogs all empty. -/
theorem LintDir_config_failure_aborts (pm : ProblemsMap)
    (exec : LogicalSchema → ExecResult) (dir : Dir) :
    (∀ e, dir.ignoreTableOpt = Except.error e →
      LintDir pm exec dir = ⟨[], [], [], [], [GoError.configError e.message]⟩) ∧
    (∀ it e, dir.ignoreTableOpt = Except.ok it → dir.ignoreSchemaOpt = Except.error e →
      LintDir pm exec dir = ⟨[], [], [], [], [GoError.configError e.message]⟩) ∧
    (∀ it isc opts e, dir.ignoreTableOpt = Except.ok it → dir.ignoreSchemaOpt = Except.ok isc →
      OptionsForDir dir = (opts, some e) →
      LintDir pm exec dir = ⟨[], [], [], [], [GoError.configError e.message]⟩) := by
  refine ⟨fun e h1 => ?_, fun it e h1 h2 => ?_, fun it isc opts e h1 h2 h3 => ?_⟩
  · unfold LintDir
    rw [h1]
    cases e <;> rfl
  · unfold LintDir
    rw [h1, h2]
    cases e <;> rfl
  · unfold LintDir
    rw [h1, h2, h3]
    cases e <;> rfl

/-- An empty problem registry, for concrete witnesses. -/
def pmEmpty : ProblemsMap := fun _ _ _ _ => []

/-- A workspace service that always fails, for concrete witnesses. -/
def execNever : LogicalSchema → ExecResult :=
  fun _ => ExecResult.fail (GoError.generic "no workspace")

/-- A directory whose ignore-table option fails to parse. -/
def dirBadPattern : Dir :=
  { relPath := ".", ignoreTableOpt := Except.error (GoError.generic "bad pattern"),
    ignoreSchemaOpt := Except.ok none, warnings := [], errors := [],
    allowCharset := [], allowEngine := [], schemaNames := [], LogicalSchemas := [] }

/-- C2 witness: a directory whose ignore-table value fails to parse yields
the single-ConfigError Result, the generic error having been converted. -/
theorem LintDir_config_failure_aborts_witness :
    LintDir pmEmpty execNever dirBadPattern =
      ⟨[], [], [], [], [GoError.configError "bad pattern"]⟩ :=
  (LintDir_config_failure_aborts pmEmpty execNever dirBadPattern).1
    (GoError.generic "bad pattern") rfl

/-- C3: when the warnings list contains a token that is not a known
problem name after lower-casing, OptionsForDir fails with a ConfigError
whose message begins with "Option warnings "; when the warnings list is
clean and the errors list contains such a token, the message begins with
"Option errors "; both messages end by enumerating all known problem
names (allAllowedStr, the comma-join of allProblemNames). -/
theorem OptionsForDir_unknown_name_message (dir : Dir) :
    ((∃ v ∈ dir.warnings, problemExists (strToLower v) = false) →
      (OptionsForDir dir).2 = some (GoError.configError
        ("Option " ++ "warnings" ++
          " must be a comma-separated list including these values: " ++ allAllowedStr))) ∧
    ((∀ v ∈ dir.warnings, problemExists (strToLower v) = true) →
      (∃ v ∈ dir.errors, problemExists (strToLower v) = false) →
      (OptionsForDir dir).2 = some (GoError.configError
        ("Option " ++ "errors" ++
          " must be a comma-separated list including these values: " ++ allAllowedStr))) ∧
    strStartsWith ("Option " ++ "warnings" ++
      " must be a comma-separated list including these values: " ++ allAllowedStr)
        "Option warnings " = true ∧
    strStartsWith ("Option " ++ "errors" ++
      " must be a comma-separated list including these values: " ++ allAllowedStr)
        "Option errors " = true ∧
    allAllowedStr = String.intercalate ", " allProblemNames := by
  refine ⟨fun hbad => ?_, fun hvalid hbad => ?_, by decide, by decide, rfl⟩
  · have hsnd := applySeverityList_bad_exists dir.warnings SeverityWarning
      "warnings" allAllowedStr hbad []
    unfold OptionsForDir
    split
    · rename_i m1 e1 hW
      rw [hW] at hsnd
      exact hsnd
    · rename_i m1 hW
      rw [hW] at hsnd
      exact absurd hsnd (by simp)
  · have hW := applySeverityList_all_valid dir.warnings SeverityWarning
      "warnings" allAllowedStr hvalid []
    have hsnd := applySeverityList_bad_exists dir.errors SeverityError
      "errors" allAllowedStr hbad (psInsertAll [] dir.warnings SeverityWarning)
    unfold OptionsForDir
    split
    · rename_i m1 e1 hW2
      rw [hW] at hW2
      exact absurd (congrArg Prod.snd hW2) (by simp)
    · rename_i m1 hW2
      rw [hW] at hW2
      have hm1 : psInsertAll [] dir.warnings SeverityWarning = m1 := congrArg Prod.fst hW2
      rw [← hm1]
      exact hsnd

/-- A directory whose warnings list holds an unrecognized token. -/
def dirBadWarnings : Dir :=
  { relPath := ".", ignoreTableOpt := Except.ok none, ignoreSchemaOpt := Except.ok none,
    warnings := ["no-pk", "bogus"], errors := [], allowCharset := [], allowEngine := [],
    schemaNames := [], LogicalSchemas := [] }

/-- C3 witness: the unknown token "bogus" in warnings produces the
"Option warnings ..." ConfigError. -/
theorem OptionsForDir_unknown_name_message_witness :
    (OptionsForDir dirBadWarnings).2 = some (GoError.configError
      ("Option " ++ "warnings" ++
        " must be a comma-separated list including these values: " ++ allAllowedStr)) :=
  (OptionsForDir_unknown_name_message dirBadWarnings).1 ⟨"bogus", by decide, by decide⟩

/-- C4: a problem name that (after lower-casing) appears in both the
warnings and the errors list ends with severity error in the map returned
by a successful OptionsForDir call — the errors list is processed after
the warnings list and the last write to the map wins. -/
theorem OptionsForDir_errors_list_wins (dir : Dir) (name : String)
    (hok : (OptionsForDir dir).2 = none)
    (hw : name ∈ dir.warnings.map strToLower)
    (he : name ∈ dir.errors.map strToLower) :
    psLookup (OptionsForDir dir).1.ProblemSeverity name = some SeverityError := by
  obtain ⟨v, hv, hveq⟩ := List.mem_map.mp he
  unfold OptionsForDir at hok ⊢
  split at hok
  · exact absurd hok (by simp)
  · rename_i m1 hW
    show psLookup (applySeverityList m1 dir.errors SeverityError "errors" allAllowedStr).1 name
      = some SeverityError
    have hokE : (applySeverityList m1 dir.errors SeverityError "errors" allAllowedStr).2
        = none := hok
    rcases hE : applySeverityList m1 dir.errors SeverityError "errors" allAllowedStr
      with ⟨m2, e2⟩
    rw [hE] at hokE
    have he2 : e2 = none := hokE
    rw [he2] at hE
    have hm2 : m2 = psInsertAll m1 dir.errors SeverityError :=
      applySeverityList_none_imp dir.errors SeverityError "errors" allAllowedStr m1 m2 hE
    show psLookup m2 name = some SeverityError
    rw [hm2, ← hveq]
    exact psLookup_psInsertAll_mem dir.errors SeverityError v hv m1

/-- A directory naming no-pk in both lists (upper-cased in errors, to
exercise the lower-casing). -/
def dirBothLists : Dir :=
  { relPath := ".", ignoreTableOpt := Except.ok none, ignoreSchemaOpt := Except.ok none,
    warnings := ["no-pk"], errors := ["NO-PK"], allowCharset := [], allowEngine := [],
    schemaNames := [], LogicalSchemas := [] }

/-- C4 witness: no-pk, listed in both warnings and errors, ends as error. -/
theorem OptionsForDir_errors_list_wins_witness :
    psLookup (OptionsForDir dirBothLists).1.ProblemSeverity "no-pk" = some SeverityError :=
  OptionsForDir_errors_list_wins dirBothLists "no-pk" (by decide) (by decide) (by decide)

/-- C9: the error path of OptionsForDir is not atomic: the returned
Options always carries the configured allow-lists, and when an
unrecognized token stops one of the two loops the ProblemSeverity map
already holds every valid entry processed before the bad token (warnings
entries as warning; for a failure inside the errors loop, the preceding
errors entries as error, with all warnings entries still present). -/
theorem OptionsForDir_error_path_not_atomic (dir : Dir) :
    (OptionsForDir dir).1.AllowedCharSets = dir.allowCharset ∧
    (OptionsForDir dir).1.AllowedEngines = dir.allowEngine ∧
    (∀ pre bad post, dir.warnings = pre ++ bad :: post →
      (∀ v ∈ pre, problemExists (strToLower v) = true) →
      problemExists (strToLower bad) = false →
      (OptionsForDir dir).2.isSome = true ∧
      ∀ v ∈ pre, psLookup (OptionsForDir dir).1.ProblemSeverity (strToLower v)
        = some SeverityWarning) ∧
    (∀ pre bad post, (∀ v ∈ dir.warnings, problemExists (strToLower v) = true) →
      dir.errors = pre ++ bad :: post →
      (∀ v ∈ pre, problemExists (strToLower v) = true) →
      problemExists (strToLower bad) = false →
      (OptionsForDir dir).2.isSome = true ∧
      (∀ v ∈ pre, psLookup (OptionsForDir dir).1.ProblemSeverity (strToLower v)
        = some SeverityError) ∧
      (∀ w ∈ dir.warnings, (psLookup (OptionsForDir dir).1.ProblemSeverity (strToLower w)).isSome
        = true)) := by
  refine ⟨?_, ?_, ?_, ?_⟩
  · unfold OptionsForDir
    split <;> rfl
  · unfold OptionsForDir
    split <;> rfl
  · intro pre bad post hsplit hpre hbad
    have hW := applySeverityList_bad_split bad post SeverityWarning "warnings" allAllowedStr
      hbad pre hpre []
    rw [← hsplit] at hW
    have hOFD : OptionsForDir dir =
        ({ ProblemSeverity := psInsertAll [] pre SeverityWarning,
           AllowedCharSets := dir.allowCharset, AllowedEngines := dir.allowEngine },
         some (GoError.configError ("Option " ++ "warnings" ++
           " must be a comma-separated list including these values: " ++ allAllowedStr))) := by
      unfold OptionsForDir
      split
      · rename_i m1 e1 hW2
        rw [hW2] at hW
        have h1 : m1 = psInsertAll [] pre SeverityWarning := congrArg Prod.fst hW
        have h2 : e1 = GoError.configError ("Option " ++ "warnings" ++
            " must be a comma-separated list including these values: " ++ allAllowedStr) :=
          Option.some.inj (congrArg Prod.snd hW)
        rw [h1, h2]
      · rename_i m1 hW2
        rw [hW2] at hW
        exact absurd (congrArg Prod.snd hW) (by simp)
    refine ⟨by rw [hOFD]; rfl, fun v hv => ?_⟩
    rw [hOFD]
    show psLookup (psInsertAll [] pre SeverityWarning) (strToLower v) = some SeverityWarning
    exact psLookup_psInsertAll_mem pre SeverityWarning v hv []
  · intro pre bad post hwvalid hsplit hpre hbad
    have hW := applySeverityList_all_valid dir.warnings SeverityWarning "warnings"
      allAllowedStr hwvalid []
    have hE := applySeverityList_bad_split bad post SeverityError "errors" allAllowedStr
      hbad pre hpre (psInsertAll [] dir.warnings SeverityWarning)
    rw [← hsplit] at hE
    have hOFD : OptionsForDir dir =
        ({ ProblemSeverity :=
             psInsertAll (psInsertAll [] dir.warnings SeverityWarning) pre SeverityError,
           AllowedCharSets := dir.allowCharset, AllowedEngines := dir.allowEngine },
         some (GoError.configError ("Option " ++ "errors" ++
           " must be a comma-separated list including these values: " ++ allAllowedStr))) := by
      unfold OptionsForDir
      split
      · rename_i m1 e1 hW2
        rw [hW] at hW2
        exact absurd (congrArg Prod.snd hW2) (by simp)
      · rename_i m1 hW2
        rw [hW] at hW2
        have hm1 : psInsertAll [] dir.warnings SeverityWarning = m1 := congrArg Prod.fst hW2
        rw [← hm1, hE]
    refine ⟨by rw [hOFD]; rfl, fun v hv => ?_, fun w hwmem => ?_⟩
    · rw [hOFD]
      show psLookup (psInsertAll (psInsertAll [] dir.warnings SeverityWarning) pre SeverityError)
        (strToLower v) = some SeverityError
      exact psLookup_psInsertAll_mem pre SeverityError v hv
        (psInsertAll [] dir.warnings SeverityWarning)
    · rw [hOFD]
      show (psLookup (psInsertAll (psInsertAll [] dir.warnings SeverityWarning) pre SeverityError)
        (strToLower w)).isSome = true
      apply psLookup_psInsertAll_isSome pre SeverityError (strToLower w)
        (psInsertAll [] dir.warnings SeverityWarning)
      rw [psLookup_psInsertAll_mem dir.warnings SeverityWarning w hwmem []]
      rfl

/-- A directory whose warnings list has a valid entry before the
unrecognized token, plus configured allow-lists. -/
def dirPartialWarnings : Dir :=
  { relPath := ".", ignoreTableOpt := Except.ok none, ignoreSchemaOpt := Except.ok none,
    warnings := ["no-pk", "bogus", "bad-engine"], errors := [],
    allowCharset := ["utf8mb4"], allowEngine := ["innodb"],
    schemaNames := [], LogicalSchemas := [] }

/-- C9 witness: even though OptionsForDir fails on "bogus", the returned
Options already carries the allow-lists and no-pk as a warning. -/
theorem OptionsForDir_error_path_not_atomic_witness :
    (OptionsForDir dirPartialWarnings).1.AllowedCharSets = ["utf8mb4"] ∧
    (OptionsForDir dirPartialWarnings).2.isSome = true ∧
    psLookup (OptionsForDir dirPartialWarnings).1.ProblemSeverity "no-pk"
      = some SeverityWarning := by
  have h := OptionsForDir_error_path_not_atomic dirPartialWarnings
  have h3 := h.2.2.1 ["no-pk"] "bogus" ["bad-engine"] rfl (by decide) (by decide)
  exact ⟨h.1, h3.1, h3.2 "no-pk" (by decide)⟩

/-- C7: when the workspace materialization of a logical schema fails with
a service-level error, the schema loop of LintDir appends exactly one
entry to Exceptions — an error naming the directory and the underlying
error — and continues with the remaining logical schemas of the same
directory; everything already accumulated is kept. -/
theorem lintSchemas_exec_failure_continues (pm : ProblemsMap)
    (exec : LogicalSchema → ExecResult) (dir : Dir) (it isc : Option Regexp)
    (opts : Options) (ls : LogicalSchema) (rest : List LogicalSchema) (acc : Result)
    (e : GoError) (hskip : skipTriggered dir isc = false)
    (hfail : exec ls = ExecResult.fail e) :
    lintSchemas pm exec dir it isc opts (ls :: rest) acc =
      lintSchemas pm exec dir it isc opts rest
        { acc with Exceptions := acc.Exceptions ++
            [GoError.generic ("Skipping schema in " ++ dir.relPath ++ " due to error: "
              ++ e.message)] } := by
  simp [lintSchemas, hskip, lintOneSchema, hfail]

/-- Shared zero-valued statement for concrete inputs. -/
def stmtZero : Statement := { File := "", LineNo := 0, CharNo := 0, body := "", suffix := "" }

/-- A concrete logical schema named one. -/
def lsOne : LogicalSchema := { Name := "one", Creates := fun _ => stmtZero }

/-- A concrete logical schema named two. -/
def lsTwo : LogicalSchema := { Name := "two", Creates := fun _ => stmtZero }

/-- A workspace service that fails on every schema. -/
def execBoom : LogicalSchema → ExecResult := fun _ => ExecResult.fail (GoError.generic "boom")

/-- Empty linter options for concrete runs. -/
def optsEmptyO : Options :=
  { ProblemSeverity := [], AllowedCharSets := [], AllowedEngines := [] }

/-- A directory holding two logical schemas and no ignore patterns. -/
def dirTwoSchemas : Dir :=
  { relPath := "d7", ignoreTableOpt := Except.ok none, ignoreSchemaOpt := Except.ok none,
    warnings := [], errors := [], allowCharset := [], allowEngine := [],
    schemaNames := [], LogicalSchemas := [lsOne, lsTwo] }

/-- C7 witness: the failed materialization of the first schema records one
exception and the loop moves on to the second schema. -/
theorem lintSchemas_exec_failure_continues_witness :
    lintSchemas pmEmpty execBoom dirTwoSchemas none none optsEmptyO [lsOne, lsTwo]
        Result.emptyR =
      lintSchemas pmEmpty execBoom dirTwoSchemas none none optsEmptyO [lsTwo]
        { Result.emptyR with Exceptions :=
            [GoError.generic ("Skipping schema in " ++ "d7" ++ " due to error: " ++ "boom")] } :=
  lintSchemas_exec_failure_continues pmEmpty execBoom dirTwoSchemas none none optsEmptyO
    lsOne [lsTwo] Result.emptyR (GoError.generic "boom") rfl rfl

/-- The difference test of the reformat loop on one ObjectDefinitions
entry: the canonical CREATE text differs from the filesystem body. -/
def reformatDiffers (ls : LogicalSchema) (p : ObjectKey × String) : Bool :=
  p.2 != (ls.Creates p.1).SplitTextBody.1

/-- The FormatNotice the reformat loop emits for one differing entry:
summary "SQL statement should be reformatted", message = canonical text
concatenated with the filesystem statement's trailing suffix. -/
def reformatNotice (ls : LogicalSchema) (p : ObjectKey × String) : Annotation :=
  { Statement := ls.Creates p.1, LineOffset := 0,
    Summary := "SQL statement should be reformatted",
    Message := p.2 ++ (ls.Creates p.1).SplitTextBody.2 }

/-- C8: the reformat loop of LintDir appends exactly one FormatNotice per
object whose canonical CREATE text differs from the corresponding
filesystem body and which is not an ignore-table-matched table (those
produce a debug log entry instead); equal texts produce nothing, and the
Errors, Warnings and Exceptions fields are untouched. -/
theorem reformatLoop_characterization (it : Option Regexp) (ls : LogicalSchema)
    (defsL : List (ObjectKey × String)) (acc : Result) :
    (reformatLoop it ls defsL acc).FormatNotices =
      acc.FormatNotices ++
        (defsL.filter (fun p => !ignoredTableKey it p.1 && reformatDiffers ls p)).map
          (reformatNotice ls) ∧
    (reformatLoop it ls defsL acc).DebugLogs =
      acc.DebugLogs ++
        (defsL.filter (fun p => ignoredTableKey it p.1)).map (fun p => tableSkipMsg p.1 it) ∧
    (reformatLoop it ls defsL acc).Errors = acc.Errors ∧
    (reformatLoop it ls defsL acc).Warnings = acc.Warnings ∧
    (reformatLoop it ls defsL acc).Exceptions = acc.Exceptions := by
  induction defsL generalizing acc with
  | nil => simp [reformatLoop]
  | cons p rest ih =>
    obtain ⟨key, text⟩ := p
    cases hig : ignoredTableKey it key with
    | true =>
      obtain ⟨ih1, ih2, ih3, ih4, ih5⟩ :=
        ih { acc with DebugLogs := acc.DebugLogs ++ [tableSkipMsg key it] }
      refine ⟨?_, ?_, ?_, ?_, ?_⟩ <;>
        simp [reformatLoop, hig, ih1, ih2, ih3, ih4, ih5, List.filter_cons]
    | false =>
      cases hd : (text != (ls.Creates key).SplitTextBody.1) with
      | true =>
        obtain ⟨ih1, ih2, ih3, ih4, ih5⟩ :=
          ih { acc with FormatNotices := acc.FormatNotices ++
            [{ Statement := ls.Creates key, LineOffset := 0,
               Summary := "SQL statement should be reformatted",
               Message := text ++ (ls.Creates key).SplitTextBody.2 }] }
        refine ⟨?_, ?_, ?_, ?_, ?_⟩ <;>
          simp [reformatLoop, hig, hd, ih1, ih2, ih3, ih4, ih5, List.filter_cons,
            reformatDiffers, reformatNotice]
      | false =>
        obtain ⟨ih1, ih2, ih3, ih4, ih5⟩ := ih acc
        refine ⟨?_, ?_, ?_, ?_, ?_⟩ <;>
          simp [reformatLoop, hig, hd, ih1, ih2, ih3, ih4, ih5, List.filter_cons,
            reformatDiffers]

/-- A pattern matching exactly the literal schema name production. -/
def reProd : Regexp := { source := "^production$", matchesFn := fun s => s == "production" }

/-- A directory with two logical schemas whose literal schema name
matches the ignore-schema pattern. -/
def dirIgnoredSchema : Dir :=
  { relPath := "mydir", ignoreTableOpt := Except.ok none,
    ignoreSchemaOpt := Except.ok (some reProd),
    warnings := [], errors := [], allowCharset := [], allowEngine := [],
    schemaNames := ["production"], LogicalSchemas := [lsOne, lsTwo] }

/-- C1 counterexample: the claim says the matching ignore-schema pattern
makes LintDir skip the first logical schema and still process the later
ones. Here the directory holds two logical schemas and the workspace
service fails on every schema, so processing the second schema would have
recorded an exception (linter.go line 103); instead LintDir returns after
the first iteration (linter.go line 95) with exactly one debug log entry
and no exceptions — the second logical schema is never processed. -/
theorem LintDir_ignore_schema_counterexample :
    dirIgnoredSchema.LogicalSchemas.length = 2 ∧
    (LintDir pmEmpty execBoom dirIgnoredSchema).DebugLogs.length = 1 ∧
    (LintDir pmEmpty execBoom dirIgnoredSchema).Exceptions = [] := by
  refine ⟨rfl, ?_, ?_⟩ <;> rfl

/-- C1 (amended): when an ignore-schema pattern is set and matches some
literal configured schema name and the directory has at least one logical
schema, LintDir abandons the directory during its first loop iteration:
the returned Result is exactly one debug log entry noting the skip, with
no findings and no exceptions — later logical schemas are not processed
and no workspace materialization is attempted. -/
theorem LintDir_ignore_schema_aborts_dir (pm : ProblemsMap)
    (exec : LogicalSchema → ExecResult) (dir : Dir) (it : Option Regexp) (pat : Regexp)
    (opts : Options)
    (h1 : dir.ignoreTableOpt = Except.ok it)
    (h2 : dir.ignoreSchemaOpt = Except.ok (some pat))
    (h3 : OptionsForDir dir = (opts, none))
    (h4 : dir.schemaNames.any pat.matchesFn = true)
    (h5 : dir.LogicalSchemas ≠ []) :
    LintDir pm exec dir =
      { Errors := [], Warnings := [], FormatNotices := [],
        DebugLogs := ["Skipping schema in " ++ dir.relPath ++ " because ignore-schema='"
          ++ pat.source ++ "'"],
        Exceptions := [] } := by
  unfold LintDir
  rw [h1, h2, h3]
  show lintSchemas pm exec dir it (some pat) opts dir.LogicalSchemas Result.emptyR = _
  cases hLS : dir.LogicalSchemas with
  | nil => exact absurd hLS h5
  | cons ls rest =>
    have hT : skipTriggered dir (some pat) = true := h4
    simp [lintSchemas, hT, schemaSkipMsg, patSource, Result.emptyR]

/-- C1 witness for the amended claim: at the counterexample directory the
whole run collapses to the single debug log entry. -/
theorem LintDir_ignore_schema_aborts_dir_witness :
    LintDir pmEmpty execBoom dirIgnoredSchema =
      { Errors := [], Warnings := [], FormatNotices := [],
        DebugLogs := ["Skipping schema in " ++ "mydir" ++ " because ignore-schema='"
          ++ "^production$" ++ "'"],
        Exceptions := [] } :=
  LintDir_ignore_schema_aborts_dir pmEmpty execBoom dirIgnoredSchema none reProd
    optsEmptyO rfl rfl rfl rfl (fun h => List.noConfusion h)

end Skeema
